import Mathlib

/-!
Verification of the time-series visualizer pipeline
(`time_series_visualizer.py`).

The script loads a CSV into a dataframe `df` indexed by date, filters out
rows whose `value` lies outside the inclusive band between the 2.5th and
97.5th percentiles of the `value` column (both quantiles computed over the
full original table, pandas default linear interpolation), and exposes three
renderers `draw_line_plot`, `draw_bar_plot`, `draw_box_plot` that each build
a figure from the filtered table, save it to a fixed file name and return it.

The embedding below models:
  * a table as a list of rows, each a date (year/month/day) and an integer
    value (`Row`);
  * pandas `Series.quantile` with linear interpolation.  The script only
    ever takes quantiles at `0.025` and `0.975` of an integer column, so the
    threshold is an exact rational with denominator `1000`; `quantileExact`
    computes its numerator/denominator pair with pure integer arithmetic
    (the floating-point computation of pandas is modelled by exact rational
    arithmetic), and `quantileSorted` is the same interpolation formula
    written directly over `ℚ`; `quantileExact_toRat` proves the two agree;
  * the module-level filter
    `df = df[(df['value'] >= df['value'].quantile(0.025)) & (df['value'] <= df['value'].quantile(0.975))]`
    (`filteredTable`) — both quantiles on the right-hand side are evaluated
    on the original `df` before the rebinding;
  * `draw_bar_plot`'s `groupby(['year','month'])['value'].mean().unstack()`
    as a grid whose row keys are the sorted distinct years, column keys the
    sorted distinct months (pandas `groupby` sorts group keys), and whose
    cells are optional means — a `(year, month)` pair with no rows has no
    cell (pandas puts `NaN` there, not `0`);
  * `draw_box_plot`'s derived year / month-abbreviation columns, its year
    groups (seaborn orders a numeric categorical axis by sorted unique
    values) and its month groups (forced by `order=month_order`);
  * every renderer as a state-passing function on the module-level filtered
    table, returning a figure record (its data plus the fixed title, axis
    label and legend strings), the list of `savefig` calls performed, and
    the module table it leaves behind.
-/

/-- A calendar date as stored in the parsed `date` index column. -/
structure Date where
  year : Nat
  month : Nat
  day : Nat
deriving DecidableEq, Repr

/-- A row of the CSV: a date and an integer page-view count. -/
structure Row where
  date : Date
  value : Int
deriving DecidableEq, Repr

/-- Insert an integer into a `(· ≤ ·)`-sorted list, keeping it sorted. -/
def insertVal (x : Int) : List Int → List Int
  | [] => [x]
  | y :: ys => if x ≤ y then x :: y :: ys else y :: insertVal x ys

/-- Sort a list of integers ascending (pandas sorts the series values
before interpolating a quantile). -/
def sortVals : List Int → List Int
  | [] => []
  | x :: xs => insertVal x (sortVals xs)

/-- An exact fraction `num / den`; the quantile thresholds of the script are
such fractions with denominator `1000`. -/
structure Frac where
  num : Int
  den : Int
deriving DecidableEq, Repr

/-- The rational value of a fraction. -/
def Frac.toRat (f : Frac) : ℚ := (f.num : ℚ) / (f.den : ℚ)

/-- Comparison `f <= v` as a boolean, for a fraction `f` with positive denominator and
an integer `v` (cross-multiplied, exact). -/
def Frac.leInt (f : Frac) (v : Int) : Bool := decide (f.num ≤ v * f.den)

/-- Comparison `v <= f` as a boolean, for a fraction `f` with positive denominator and
an integer `v` (cross-multiplied, exact). -/
def Frac.geInt (f : Frac) (v : Int) : Bool := decide (v * f.den ≤ f.num)

/-- Pandas `Series.quantile(q)` with the default linear interpolation on an
already sorted integer list `s` of length `n`, for a quantile `q` given as
an exact fraction: with `h = q * (n - 1)` and `i = ⌊h⌋`, the result is
`s[i] + (h - i) * (s[i+1] - s[i])` (and just `s[i]` when `h` lands on the
last index).  Everything is scaled by the denominator `q.den`, so the
result is the exact fraction
`(s[i] * q.den + (q.num * (n-1) - i * q.den) * (s[i+1] - s[i])) / q.den`.
An empty series is given threshold `0 / q.den`; the script never takes a
quantile of an empty column. -/
def quantileExact (s : List Int) (q : Frac) : Frac :=
  match s with
  | [] => ⟨0, q.den⟩
  | _ :: _ =>
    let n : Nat := s.length
    let hnum : Int := q.num * ((n : Int) - 1)
    let i : Nat := (hnum / q.den).toNat
    let lo : Int := s.getD i 0
    let hi : Int := s.getD (i + 1) lo
    ⟨lo * q.den + (hnum - (i : Int) * q.den) * (hi - lo), q.den⟩

/-- The same linear-interpolation quantile written directly over `ℚ`,
used to state that `quantileExact` is exactly pandas' formula. -/
def quantileSorted (s : List ℚ) (q : ℚ) : ℚ :=
  match s with
  | [] => 0
  | _ :: _ =>
    let n : Nat := s.length
    let h : ℚ := q * ((n : ℚ) - 1)
    let i : Nat := (⌊h⌋).toNat
    let lo : ℚ := s.getD i 0
    let hi : ℚ := s.getD (i + 1) lo
    lo + (h - (i : ℚ)) * (hi - lo)

/-- The `value` column of a table, in file order. -/
def valueColumn (t : List Row) : List Int := t.map (fun r => r.value)

/-- Threshold `df['value'].quantile(0.025)` over the full table, as an exact fraction. -/
def lowerFrac (t : List Row) : Frac := quantileExact (sortVals (valueColumn t)) ⟨25, 1000⟩

/-- Threshold `df['value'].quantile(0.975)` over the full table, as an exact fraction. -/
def upperFrac (t : List Row) : Frac := quantileExact (sortVals (valueColumn t)) ⟨975, 1000⟩

/-- The 2.5th-percentile threshold of the value column, as a rational. -/
def lowerThreshold (t : List Row) : ℚ := (lowerFrac t).toRat

/-- The 97.5th-percentile threshold of the value column, as a rational. -/
def upperThreshold (t : List Row) : ℚ := (upperFrac t).toRat

/-- The module-level filter
`df = df[(df['value'] >= df['value'].quantile(0.025)) & (df['value'] <= df['value'].quantile(0.975))]`:
a row survives iff its value is `>=` the 2.5th and `<=` the 97.5th
percentile of the original table's value column; both thresholds are
evaluated on the original `df` of the right-hand side before the rebinding,
so they are computed once over the full table. -/
def filteredTable (t : List Row) : List Row :=
  t.filter (fun r => (lowerFrac t).leInt r.value && (upperFrac t).geInt r.value)

/-- The three-row scenario table from the specification:
`[(2016-05-09, 1201), (2016-05-10, 2329), (2016-05-11, 1716)]`. -/
def scenarioTable : List Row :=
  [⟨⟨2016, 5, 9⟩, 1201⟩, ⟨⟨2016, 5, 10⟩, 2329⟩, ⟨⟨2016, 5, 11⟩, 1716⟩]

example : sortVals (valueColumn scenarioTable) = [1201, 1716, 2329] := by decide
example : lowerFrac scenarioTable = ⟨1226750, 1000⟩ := by decide
example : upperFrac scenarioTable = ⟨2298350, 1000⟩ := by decide
example : filteredTable scenarioTable = [⟨⟨2016, 5, 11⟩, 1716⟩] := by decide

/-- Insert a key into a strictly increasing list of keys, dropping
duplicates: one step of building a sorted unique index, which is what
pandas `groupby` (with its default `sort=True`) and `unstack` produce for
the row and column labels. -/
def insertKey (x : Nat) : List Nat → List Nat
  | [] => [x]
  | y :: ys =>
    if x < y then x :: y :: ys
    else if x = y then y :: ys
    else y :: insertKey x ys

/-- The sorted distinct keys of a list, as pandas uses for group labels. -/
def sortedKeys (l : List Nat) : List Nat := l.foldr insertKey []

/-- The rows of a table falling in the `(year, month)` group, with the month
taken numerically (1–12) as `df_bar.index.month` does. -/
def groupRows (t : List Row) (y m : Nat) : List Row :=
  t.filter (fun r => r.date.year == y && r.date.month == m)

/-- The value column of one `(year, month)` group. -/
def groupValues (t : List Row) (y m : Nat) : List Int :=
  (groupRows t y m).map (fun r => r.value)

/-- The arithmetic mean `groupby(['year','month'])['value'].mean()` of one
group, as an exact rational; `none` when the group has no rows (after
`unstack` pandas shows `NaN` there, not `0`). -/
def groupMean (t : List Row) (y m : Nat) : Option ℚ :=
  if (groupValues t y m).length = 0 then none
  else some (((groupValues t y m).map (fun v : Int => (v : ℚ))).sum / ((groupValues t y m).length : ℚ))

/-- The pivoted table `groupby(['year','month'])['value'].mean().unstack()`:
row labels are the sorted distinct years, column labels the sorted distinct
months, and each cell holds the group mean when the group is present. -/
structure Grid where
  years : List Nat
  months : List Nat
  cell : Nat → Nat → Option ℚ

/-- Build the bar-plot grid from a table: `df_bar['year'] = index.year`,
`df_bar['month'] = index.month`, then group, average and unstack. -/
def barGrid (t : List Row) : Grid :=
  { years := sortedKeys (t.map (fun r => r.date.year))
    months := sortedKeys (t.map (fun r => r.date.month))
    cell := groupMean t }

/-- The legend labels hard-coded in `draw_bar_plot`
(`months = ['January', ..., 'December']`). -/
def months : List String :=
  ["January", "February", "March", "April", "May", "June", "July",
   "August", "September", "October", "November", "December"]

/-- The month order hard-coded in `draw_box_plot`
(`month_order = ['Jan', ..., 'Dec']`). -/
def month_order : List String :=
  ["Jan", "Feb", "Mar", "Apr", "May", "Jun", "Jul", "Aug", "Sep", "Oct", "Nov", "Dec"]

/-- Abbreviation `d.strftime('%b')`: the English three-letter abbreviation of a date's
month (months are 1-based; out-of-range months never arise from parsed
dates). -/
def monthAbbrev (m : Nat) : String := month_order.getD (m - 1) ""

/-- A row of `df_box` after `reset_index` and the two derived columns
`df_box['year'] = [d.year for d in df_box.date]` and
`df_box['month'] = [d.strftime('%b') for d in df_box.date]`. -/
structure BoxRow where
  date : Date
  value : Int
  year : Nat
  monthName : String
deriving DecidableEq, Repr

/-- The dataframe `df_box` as built in `draw_box_plot` from the (copied) filtered table. -/
def boxRows (t : List Row) : List BoxRow :=
  t.map (fun r => ⟨r.date, r.value, r.date.year, monthAbbrev r.date.month⟩)

/-- The year-wise box-plot groups: seaborn, given no explicit `order`,
orders a numeric categorical axis by its sorted unique values; each group
carries the value distribution drawn in its box. -/
def yearGroups (b : List BoxRow) : List (Nat × List Int) :=
  (sortedKeys (b.map (fun r => r.year))).map
    (fun y => (y, (b.filter (fun r => r.year == y)).map (fun r => r.value)))

/-- The month-wise box-plot groups: `order=month_order` forces the axis
categories to be exactly `Jan…Dec` in that order; each category collects
the values whose month abbreviation matches it. -/
def monthGroups (b : List BoxRow) : List (String × List Int) :=
  month_order.map
    (fun mo => (mo, (b.filter (fun r => r.monthName == mo)).map (fun r => r.value)))

/-- Model of `df.copy()`: a fresh object with the same contents; in-place edits of
the copy do not touch the module-level table. -/
def copyTable (t : List Row) : List Row := t

/-- The figure built by `draw_line_plot`: the plotted series and the fixed
title and axis labels. -/
structure LineFigure where
  points : List (Date × Int)
  title : String
  xlabel : String
  ylabel : String

/-- The figure built by `draw_bar_plot`: the pivoted grid, the fixed axis
labels and the fixed legend. -/
structure BarFigure where
  grid : Grid
  xlabel : String
  ylabel : String
  legendTitle : String
  legendLabels : List String

/-- The figure built by `draw_box_plot`: the two box-plot panels with their
fixed titles and axis labels. -/
structure BoxFigure where
  yearPanel : List (Nat × List Int)
  monthPanel : List (String × List Int)
  titleLeft : String
  xlabelLeft : String
  ylabelLeft : String
  titleRight : String
  xlabelRight : String
  ylabelRight : String

/-- The observable outcome of one renderer call: the Python return value
(`none` would be an implicit `return None`) and the `fig.savefig` calls
performed, as (file name, figure) pairs. -/
structure RenderOut (F : Type) where
  ret : Option F
  saved : List (String × F)

/-- Renderer `draw_line_plot()`: plots the filtered table's value over its date
index, sets the fixed title and labels, saves `line_plot.png` and returns
the figure.  The second component is the module-level `df` after the call:
the function only reads it. -/
def draw_line_plot (df : List Row) : RenderOut LineFigure × List Row :=
  let fig : LineFigure :=
    { points := df.map (fun r => (r.date, r.value))
      title := "Daily freeCodeCamp Forum Page Views 5/2016-12/2019"
      xlabel := "Date"
      ylabel := "Page Views" }
  ({ ret := some fig, saved := [("line_plot.png", fig)] }, df)

/-- Renderer `draw_bar_plot()`: works on `df.copy()`, adds the year/month columns,
groups, averages and unstacks into the grid, sets the fixed labels and the
fixed 12-entry legend, saves `bar_plot.png` and returns the figure.  The
second component is the module-level `df` after the call: all mutation hits
the copy. -/
def draw_bar_plot (df : List Row) : RenderOut BarFigure × List Row :=
  let df_bar := copyTable df
  let fig : BarFigure :=
    { grid := barGrid df_bar
      xlabel := "Years"
      ylabel := "Average Page Views"
      legendTitle := "Months"
      legendLabels := months }
  ({ ret := some fig, saved := [("bar_plot.png", fig)] }, df)

/-- Renderer `draw_box_plot()`: works on `df.copy()` reset to columns with the
derived year and month-abbreviation fields, draws the year-wise and
month-wise box panels with their fixed titles and labels, saves
`box_plot.png` and returns the figure.  The second component is the
module-level `df` after the call: `reset_index(inplace=True)` and the
column assignments hit the copy. -/
def draw_box_plot (df : List Row) : RenderOut BoxFigure × List Row :=
  let df_box := boxRows (copyTable df)
  let fig : BoxFigure :=
    { yearPanel := yearGroups df_box
      monthPanel := monthGroups df_box
      titleLeft := "Year-wise Box Plot (Trend)"
      xlabelLeft := "Year"
      ylabelLeft := "Page Views"
      titleRight := "Month-wise Box Plot (Seasonality)"
      xlabelRight := "Month"
      ylabelRight := "Page Views" }
  ({ ret := some fig, saved := [("box_plot.png", fig)] }, df)

/-! ### Helper lemmas -/

/-- Membership in an `insertKey` step. -/
theorem mem_insertKey {a x : Nat} {l : List Nat} :
    a ∈ insertKey x l ↔ a = x ∨ a ∈ l := by
  induction l with
  | nil => simp [insertKey]
  | cons y ys ih =>
    by_cases h1 : x < y
    · have hstep : insertKey x (y :: ys) = x :: y :: ys := by simp [insertKey, h1]
      rw [hstep]
      simp only [List.mem_cons]
    · by_cases h2 : x = y
      · subst h2
        have hstep : insertKey x (x :: ys) = x :: ys := by simp [insertKey, h1]
        rw [hstep]
        simp only [List.mem_cons]
        tauto
      · have hstep : insertKey x (y :: ys) = y :: insertKey x ys := by
          simp [insertKey, h1, h2]
        rw [hstep]
        simp only [List.mem_cons, ih]
        tauto

/-- Inserting into a strictly increasing key list keeps it strictly
increasing. -/
theorem pairwise_insertKey {x : Nat} {l : List Nat}
    (h : l.Pairwise (· < ·)) : (insertKey x l).Pairwise (· < ·) := by
  induction l with
  | nil => simp [insertKey]
  | cons y ys ih =>
    rcases List.pairwise_cons.mp h with ⟨hy, hys⟩
    by_cases h1 : x < y
    · simp only [insertKey, if_pos h1]
      refine List.pairwise_cons.mpr ⟨?_, h⟩
      intro b hb
      rcases List.mem_cons.mp hb with rfl | hb
      · exact h1
      · exact Nat.lt_trans h1 (hy b hb)
    · by_cases h2 : x = y
      · simpa [insertKey, h1, h2] using h
      · have hyx : y < x := by omega
        simp only [insertKey, if_neg h1, if_neg h2]
        refine List.pairwise_cons.mpr ⟨?_, ih hys⟩
        intro b hb
        rcases mem_insertKey.mp hb with rfl | hb
        · exact hyx
        · exact hy b hb

/-- The sorted unique key list is strictly increasing. -/
theorem pairwise_sortedKeys (l : List Nat) : (sortedKeys l).Pairwise (· < ·) := by
  induction l with
  | nil => exact List.Pairwise.nil
  | cons x xs ih => exact pairwise_insertKey ih

/-- The sorted unique key list has exactly the elements of the input. -/
theorem mem_sortedKeys {a : Nat} {l : List Nat} : a ∈ sortedKeys l ↔ a ∈ l := by
  induction l with
  | nil => simp [sortedKeys]
  | cons x xs ih =>
    show a ∈ insertKey x (sortedKeys xs) ↔ _
    rw [mem_insertKey, ih, List.mem_cons]

/-- The sorted unique key list has no duplicates. -/
theorem nodup_sortedKeys (l : List Nat) : (sortedKeys l).Nodup :=
  (pairwise_sortedKeys l).imp (fun h => Nat.ne_of_lt h)

/-- A strictly increasing list of naturals is a sublist of any strictly
increasing list containing its elements. -/
theorem sublist_of_pairwise_lt_of_subset : ∀ {l r : List Nat},
    l.Pairwise (· < ·) → r.Pairwise (· < ·) → (∀ x ∈ l, x ∈ r) → l.Sublist r := by
  intro l r hl hr hsub
  haveI : IsAntisymm Nat (· < ·) := ⟨fun a b h1 h2 => absurd h2 (Nat.lt_asymm h1)⟩
  exact List.sublist_of_subperm_of_sorted
    (List.subperm_of_subset (hl.imp (fun h => Nat.ne_of_lt h)) hsub) hl hr

/-- Evaluating `getD` through a `map`, when the default is also mapped. -/
theorem getD_map (g : Int → ℚ) : ∀ (l : List Int) (i : Nat) (d : Int),
    (l.map g).getD i (g d) = g (l.getD i d) := by
  intro l
  induction l with
  | nil => intro i d; rfl
  | cons x xs ih =>
    intro i d
    cases i with
    | zero => rfl
    | succ j => exact ih j d

/-- The denominator of an exact quantile is the quantile's denominator. -/
theorem quantileExact_den (s : List Int) (q : Frac) :
    (quantileExact s q).den = q.den := by
  cases s <;> rfl

/-- Boolean `leInt` agrees with the rational comparison. -/
theorem Frac.leInt_iff (f : Frac) (hd : 0 < f.den) (v : Int) :
    f.leInt v = true ↔ f.toRat ≤ (v : ℚ) := by
  unfold Frac.leInt Frac.toRat
  rw [decide_eq_true_eq, div_le_iff₀ (by exact_mod_cast hd)]
  constructor <;> intro h <;> exact_mod_cast h

/-- Boolean `geInt` agrees with the rational comparison. -/
theorem Frac.geInt_iff (f : Frac) (hd : 0 < f.den) (v : Int) :
    f.geInt v = true ↔ (v : ℚ) ≤ f.toRat := by
  unfold Frac.geInt Frac.toRat
  rw [decide_eq_true_eq, le_div_iff₀ (by exact_mod_cast hd)]
  constructor <;> intro h <;> exact_mod_cast h

/-- The lower threshold fraction has denominator `1000`. -/
theorem lowerFrac_den (t : List Row) : (lowerFrac t).den = 1000 :=
  quantileExact_den _ _

/-- The upper threshold fraction has denominator `1000`. -/
theorem upperFrac_den (t : List Row) : (upperFrac t).den = 1000 :=
  quantileExact_den _ _

/-- Evaluation of `quantileExact` on a nonempty list, written out. -/
theorem quantileExact_cons (x : Int) (xs : List Int) (q : Frac) :
    quantileExact (x :: xs) q =
      ⟨(x :: xs).getD ((q.num * (((x :: xs).length : Int) - 1) / q.den).toNat) 0 * q.den +
          (q.num * (((x :: xs).length : Int) - 1) -
              ((q.num * (((x :: xs).length : Int) - 1) / q.den).toNat : Int) * q.den) *
            ((x :: xs).getD ((q.num * (((x :: xs).length : Int) - 1) / q.den).toNat + 1)
                ((x :: xs).getD ((q.num * (((x :: xs).length : Int) - 1) / q.den).toNat) 0) -
              (x :: xs).getD ((q.num * (((x :: xs).length : Int) - 1) / q.den).toNat) 0),
        q.den⟩ := rfl

/-- Evaluation of `quantileSorted` on a nonempty list, written out. -/
theorem quantileSorted_cons (x : ℚ) (xs : List ℚ) (q : ℚ) :
    quantileSorted (x :: xs) q =
      (x :: xs).getD ((⌊q * (((x :: xs).length : ℚ) - 1)⌋).toNat) 0 +
        (q * (((x :: xs).length : ℚ) - 1) - (((⌊q * (((x :: xs).length : ℚ) - 1)⌋).toNat : Nat) : ℚ)) *
          ((x :: xs).getD ((⌊q * (((x :: xs).length : ℚ) - 1)⌋).toNat + 1)
              ((x :: xs).getD ((⌊q * (((x :: xs).length : ℚ) - 1)⌋).toNat) 0) -
            (x :: xs).getD ((⌊q * (((x :: xs).length : ℚ) - 1)⌋).toNat) 0) := rfl

/-- The exact integer-arithmetic quantile agrees with the direct rational
interpolation formula: `quantileExact` is pandas' linear-interpolation
quantile. -/
theorem quantileExact_toRat (s : List Int) (q : Frac) (hden : 0 < q.den) :
    (quantileExact s q).toRat = quantileSorted (s.map (fun v : Int => (v : ℚ))) q.toRat := by
  cases s with
  | nil => simp [quantileExact, quantileSorted, Frac.toRat]
  | cons a as =>
    have hdQ : ((q.den : ℤ) : ℚ) ≠ 0 := by
      have h0 : (0 : ℚ) < ((q.den : ℤ) : ℚ) := by exact_mod_cast hden
      exact ne_of_gt h0
    have hcastden : ((q.den.toNat : ℕ) : ℚ) = ((q.den : ℤ) : ℚ) := by
      have h1 : ((q.den.toNat : ℕ) : ℤ) = q.den := Int.toNat_of_nonneg (le_of_lt hden)
      exact_mod_cast congrArg (fun z : ℤ => (z : ℚ)) h1
    have hposq : q.toRat * (((a :: as).length : ℚ) - 1) =
        ((q.num * (((a :: as).length : ℤ) - 1) : ℤ) : ℚ) / ((q.den : ℤ) : ℚ) := by
      rw [Frac.toRat]
      push_cast
      ring
    have hfloor : ⌊q.toRat * (((a :: as).length : ℚ) - 1)⌋ =
        q.num * (((a :: as).length : ℤ) - 1) / q.den := by
      rw [hposq, ← hcastden]
      have h2 := Rat.floor_intCast_div_natCast (q.num * (((a :: as).length : ℤ) - 1)) q.den.toNat
      rw [h2, Int.toNat_of_nonneg (le_of_lt hden)]
    rw [List.map_cons, quantileSorted_cons, ← List.map_cons, quantileExact_cons]
    rw [List.length_map, hfloor]
    have hzero : (0 : ℚ) = (fun v : Int => (v : ℚ)) 0 := by norm_num
    rw [hzero, getD_map, getD_map]
    rw [Frac.toRat, hposq]
    push_cast
    field_simp
    ring_nf
    exact Or.inl trivial

/-! ### Claim theorems -/

/-- C1: a row is retained in the filtered table exactly when it is a row of
the original table whose value lies inclusively between the 2.5th and the
97.5th percentile of the value column, both percentiles being computed once
over the full original table. -/
theorem filteredTable_mem_iff (t : List Row) (r : Row) :
    r ∈ filteredTable t ↔
      r ∈ t ∧ lowerThreshold t ≤ (r.value : ℚ) ∧ (r.value : ℚ) ≤ upperThreshold t := by
  have hlo : 0 < (lowerFrac t).den := by rw [lowerFrac_den]; norm_num
  have hhi : 0 < (upperFrac t).den := by rw [upperFrac_den]; norm_num
  unfold filteredTable
  simp only [List.mem_filter, Bool.and_eq_true]
  rw [Frac.leInt_iff _ hlo, Frac.geInt_iff _ hhi]
  exact Iff.rfl

/-- Witness for C1 at the three-row scenario table and its surviving row. -/
theorem filteredTable_mem_iff_witness :
    (⟨⟨2016, 5, 11⟩, 1716⟩ : Row) ∈ scenarioTable ∧
      lowerThreshold scenarioTable ≤ ((1716 : Int) : ℚ) ∧
      ((1716 : Int) : ℚ) ≤ upperThreshold scenarioTable :=
  (filteredTable_mem_iff scenarioTable ⟨⟨2016, 5, 11⟩, 1716⟩).mp (by decide)

/-- C2 counterexample: on the three-row scenario table the outlier filter
does remove rows, so the filtered table is not equal to the table. -/
theorem scenario_filter_removes_rows : filteredTable scenarioTable ≠ scenarioTable := by
  decide

/-- C2 amended: on the three-row scenario table the linear-interpolation
quantile thresholds are `1226.75` and `2298.35`, so the rows with values
`1201` and `2329` are removed and only `(2016-05-11, 1716)` is retained. -/
theorem scenario_filteredTable_eq :
    lowerThreshold scenarioTable = 4907 / 4 ∧
      upperThreshold scenarioTable = 45967 / 20 ∧
      filteredTable scenarioTable = [⟨⟨2016, 5, 11⟩, 1716⟩] := by
  refine ⟨?_, ?_, by decide⟩
  · have h : lowerFrac scenarioTable = ⟨1226750, 1000⟩ := by decide
    show (lowerFrac scenarioTable).toRat = 4907 / 4
    rw [h, Frac.toRat]
    norm_num
  · have h : upperFrac scenarioTable = ⟨2298350, 1000⟩ := by decide
    show (upperFrac scenarioTable).toRat = 45967 / 20
    rw [h, Frac.toRat]
    norm_num

/-- C6: the filtered table is a subset of the table (each of its rows is a
row of the table, with identical date and value) and is no longer than it. -/
theorem filteredTable_subset_len (t : List Row) :
    (∀ r ∈ filteredTable t, r ∈ t) ∧ (filteredTable t).length ≤ t.length :=
  ⟨fun _ hr => List.mem_of_mem_filter hr, List.length_filter_le _ t⟩

/-- Witness for C6 at the three-row scenario table. -/
theorem filteredTable_subset_len_witness :
    (∀ r ∈ filteredTable scenarioTable, r ∈ scenarioTable) ∧
      (filteredTable scenarioTable).length ≤ scenarioTable.length :=
  filteredTable_subset_len scenarioTable

/-- C7: a `(year, month)` combination with no rows in the filtered table has
an absent cell in the bar-plot grid — `none`, not a cell equal to zero. -/
theorem barGrid_missing_cell_none (t : List Row) (y m : Nat)
    (h : ∀ r ∈ filteredTable t, ¬(r.date.year = y ∧ r.date.month = m)) :
    (barGrid (filteredTable t)).cell y m = none ∧
      (barGrid (filteredTable t)).cell y m ≠ some 0 := by
  have hfil : (filteredTable t).filter
      (fun r => r.date.year == y && r.date.month == m) = [] := by
    rw [List.filter_eq_nil_iff]
    intro r hr
    intro hc
    rw [Bool.and_eq_true, beq_iff_eq, beq_iff_eq] at hc
    exact h r hr hc
  have hgv : groupValues (filteredTable t) y m = [] := by
    unfold groupValues groupRows
    rw [hfil]
    rfl
  have hmean : groupMean (filteredTable t) y m = none := by
    unfold groupMean
    rw [hgv]
    simp
  have hcell : (barGrid (filteredTable t)).cell y m = none := hmean
  exact ⟨hcell, by rw [hcell]; exact fun hc => Option.noConfusion hc⟩

/-- Witness for C7: the filtered scenario table has no rows in January
2016, and the corresponding grid cell is absent. -/
theorem barGrid_missing_cell_none_witness :
    (∀ r ∈ filteredTable scenarioTable, ¬(r.date.year = 2016 ∧ r.date.month = 1)) ∧
      ((barGrid (filteredTable scenarioTable)).cell 2016 1 = none ∧
        (barGrid (filteredTable scenarioTable)).cell 2016 1 ≠ some 0) :=
  ⟨by decide, barGrid_missing_cell_none scenarioTable 2016 1 (by decide)⟩

/-- C3: the bar-plot grid has one row label per distinct year of the
filtered table; its column labels are a sublist of `[1..12]` (so they are
ordered exactly by month number, regardless of input row order) and are
exactly the months present; and every present `(year, month)` group has a
cell equal to the arithmetic mean of the group's values (characterised by
`mean * count = sum`). -/
theorem barGrid_shape (t : List Row)
    (hval : ∀ r ∈ t, 1 ≤ r.date.month ∧ r.date.month ≤ 12) :
    ((barGrid (filteredTable t)).years.Nodup ∧
      (∀ y, y ∈ (barGrid (filteredTable t)).years ↔ ∃ r ∈ filteredTable t, r.date.year = y)) ∧
    ((barGrid (filteredTable t)).months.Sublist [1, 2, 3, 4, 5, 6, 7, 8, 9, 10, 11, 12] ∧
      (∀ m, m ∈ (barGrid (filteredTable t)).months ↔ ∃ r ∈ filteredTable t, r.date.month = m)) ∧
    (∀ y m, groupRows (filteredTable t) y m ≠ [] →
      ∃ q, (barGrid (filteredTable t)).cell y m = some q ∧
        q * ((groupValues (filteredTable t) y m).length : ℚ) =
          ((groupValues (filteredTable t) y m).map (fun v : Int => (v : ℚ))).sum) := by
  refine ⟨⟨?_, ?_⟩, ⟨?_, ?_⟩, ?_⟩
  · exact nodup_sortedKeys _
  · intro y
    show y ∈ sortedKeys ((filteredTable t).map (fun r => r.date.year)) ↔ _
    rw [mem_sortedKeys, List.mem_map]
  · refine sublist_of_pairwise_lt_of_subset (pairwise_sortedKeys _) (by decide) ?_
    intro m hm
    have hm2 : m ∈ sortedKeys ((filteredTable t).map (fun r => r.date.month)) := hm
    rw [mem_sortedKeys, List.mem_map] at hm2
    obtain ⟨r, hrf, hrm⟩ := hm2
    have hb : 1 ≤ m ∧ m ≤ 12 := by
      rw [← hrm]
      exact hval r (List.mem_of_mem_filter hrf)
    simp only [List.mem_cons, List.not_mem_nil, or_false]
    omega
  · intro m
    show m ∈ sortedKeys ((filteredTable t).map (fun r => r.date.month)) ↔ _
    rw [mem_sortedKeys, List.mem_map]
  · intro y m hne
    have hlen0 : (groupValues (filteredTable t) y m).length ≠ 0 := by
      unfold groupValues
      rw [List.length_map]
      intro h0
      exact hne (List.length_eq_zero.mp h0)
    refine ⟨((groupValues (filteredTable t) y m).map (fun v : Int => (v : ℚ))).sum /
        ((groupValues (filteredTable t) y m).length : ℚ), ?_, ?_⟩
    · show groupMean (filteredTable t) y m = _
      unfold groupMean
      rw [if_neg hlen0]
    · have hcast : ((groupValues (filteredTable t) y m).length : ℚ) ≠ 0 := by
        exact_mod_cast hlen0
      rw [div_mul_cancel₀ _ hcast]

/-- Witness for C3 at the three-row scenario table. -/
theorem barGrid_shape_witness :
    (∀ r ∈ scenarioTable, 1 ≤ r.date.month ∧ r.date.month ≤ 12) ∧
    (((barGrid (filteredTable scenarioTable)).years.Nodup ∧
      (∀ y, y ∈ (barGrid (filteredTable scenarioTable)).years ↔
        ∃ r ∈ filteredTable scenarioTable, r.date.year = y)) ∧
    ((barGrid (filteredTable scenarioTable)).months.Sublist
        [1, 2, 3, 4, 5, 6, 7, 8, 9, 10, 11, 12] ∧
      (∀ m, m ∈ (barGrid (filteredTable scenarioTable)).months ↔
        ∃ r ∈ filteredTable scenarioTable, r.date.month = m)) ∧
    (∀ y m, groupRows (filteredTable scenarioTable) y m ≠ [] →
      ∃ q, (barGrid (filteredTable scenarioTable)).cell y m = some q ∧
        q * ((groupValues (filteredTable scenarioTable) y m).length : ℚ) =
          ((groupValues (filteredTable scenarioTable) y m).map
            (fun v : Int => (v : ℚ))).sum)) :=
  ⟨by decide, barGrid_shape scenarioTable (by decide)⟩

/-- C4: for every input, the month-wise box plot's groups are exactly the
fixed calendar sequence Jan…Dec, independent of the data's span or order. -/
theorem boxplot_month_group_order (t : List Row) :
    ∃ fig : BoxFigure, (draw_box_plot t).1.ret = some fig ∧
      fig.monthPanel.map Prod.fst =
        ["Jan", "Feb", "Mar", "Apr", "May", "Jun", "Jul", "Aug", "Sep", "Oct", "Nov", "Dec"] :=
  ⟨_, rfl, rfl⟩

/-- C5: for every input, the bar chart's legend labels are exactly the
twelve full month names in calendar order. -/
theorem barplot_legend_labels (t : List Row) :
    ∃ fig : BarFigure, (draw_bar_plot t).1.ret = some fig ∧
      fig.legendLabels =
        ["January", "February", "March", "April", "May", "June", "July",
         "August", "September", "October", "November", "December"] :=
  ⟨_, rfl, rfl⟩

/-- C8: the rendered text and output file names are the fixed literals of
the script, for all three renderers. -/
theorem renderer_fixed_literals (t : List Row) :
    (∃ figL : LineFigure, (draw_line_plot t).1.saved = [("line_plot.png", figL)] ∧
      figL.title = "Daily freeCodeCamp Forum Page Views 5/2016-12/2019" ∧
      figL.xlabel = "Date" ∧ figL.ylabel = "Page Views") ∧
    (∃ figB : BarFigure, (draw_bar_plot t).1.saved = [("bar_plot.png", figB)] ∧
      figB.xlabel = "Years" ∧ figB.ylabel = "Average Page Views" ∧
      figB.legendTitle = "Months") ∧
    (∃ figX : BoxFigure, (draw_box_plot t).1.saved = [("box_plot.png", figX)] ∧
      figX.titleLeft = "Year-wise Box Plot (Trend)" ∧
      figX.xlabelLeft = "Year" ∧ figX.ylabelLeft = "Page Views" ∧
      figX.titleRight = "Month-wise Box Plot (Seasonality)" ∧
      figX.xlabelRight = "Month" ∧ figX.ylabelRight = "Page Views") :=
  ⟨⟨_, rfl, rfl, rfl, rfl⟩, ⟨_, rfl, rfl, rfl, rfl⟩, ⟨_, rfl, rfl, rfl, rfl, rfl, rfl, rfl⟩⟩

/-- C9: no renderer modifies the module-level filtered table: each call
returns it unchanged (the bar and box renderers only mutate copies). -/
theorem renderers_preserve_df (df : List Row) :
    (draw_line_plot df).2 = df ∧ (draw_bar_plot df).2 = df ∧ (draw_box_plot df).2 = df :=
  ⟨rfl, rfl, rfl⟩

/-- C10: each renderer returns (non-`None`) exactly the figure it saved to
its output file. -/
theorem renderers_return_saved_figure (df : List Row) :
    (∃ f, (draw_line_plot df).1.ret = some f ∧
      ("line_plot.png", f) ∈ (draw_line_plot df).1.saved) ∧
    (∃ f, (draw_bar_plot df).1.ret = some f ∧
      ("bar_plot.png", f) ∈ (draw_bar_plot df).1.saved) ∧
    (∃ f, (draw_box_plot df).1.ret = some f ∧
      ("box_plot.png", f) ∈ (draw_box_plot df).1.saved) :=
  ⟨⟨_, rfl, List.mem_singleton_self _⟩, ⟨_, rfl, List.mem_singleton_self _⟩,
    ⟨_, rfl, List.mem_singleton_self _⟩⟩
